import Mathlib

/-!
Verification of the feature-extraction orchestration core of the
gene-explorer repository (FastAPI backend `backend/main.py` plus the
`feature_engineering` package), as a shallow embedding in Lean 4.

Conventions of the embedding:
* Python dicts that map feature names to values become association lists
  `List (String × PyVal)` preserving insertion order; `dictInsert` mirrors
  `d[k] = v` (update-in-place if the key exists, append otherwise) and
  `dictUpdate` mirrors `d.update(other)`.
* Python floats are modelled as exact rationals `ℚ`; Python ints as `ℤ`
  (kept separate because `round(v, n)` is applied only to floats).
* Code that can raise returns `Except String α`; `try/except` becomes a
  `match` on that result.
* External scientific collaborators (Biopython `ProteinAnalysis`,
  `Bio.Seq.translate`, `Bio.SeqUtils.gc_fraction`, `math.log2`, the
  `codonbias` score objects) are out of the spec's scope; they enter the
  embedding as parameters collected in the `Libs` structure, typed by
  their documented invocation contract (input type, output shape,
  failure mode).
* Instance attributes mutated by the code (`self.amino_acid_sequence`,
  the weight caches on a reference-sequence set) are threaded as explicit
  state values.
-/

/-- A Python runtime value as it appears in attribute maps produced by the
feature-extraction code: scalars (int, float, str, bool), `None`,
`float('nan')`, and the raw collections (list, tuple, dict). -/
inductive PyVal where
  | int (n : ℤ)
  | num (q : ℚ)
  | str (s : String)
  | pbool (b : Bool)
  | pnone
  | nanv
  | list (l : List PyVal)
  | tuple (l : List PyVal)
  | dict (d : List (String × PyVal))

/-- A value is a scalar in the sense of the spec's attribute-map invariant:
a number (including `nan`, which Python represents as a float), a string or
a boolean.  `None` and the raw collections are not scalars. -/
def PyVal.isScalar : PyVal → Bool
  | .int _ => true
  | .num _ => true
  | .str _ => true
  | .pbool _ => true
  | .nanv => true
  | .pnone => false
  | .list _ => false
  | .tuple _ => false
  | .dict _ => false

/-- Python `d[k] = v` on an insertion-ordered dict represented as an
association list: overwrite in place if the key is present, else append. -/
def dictInsert (d : List (String × PyVal)) (k : String) (v : PyVal) :
    List (String × PyVal) :=
  if d.any (fun p => p.1 == k) then
    d.map (fun p => if p.1 == k then (k, v) else p)
  else d ++ [(k, v)]

/-- Python `d.update(upd)`: insert `upd`'s entries left to right. -/
def dictUpdate (d upd : List (String × PyVal)) : List (String × PyVal) :=
  upd.foldl (fun acc p => dictInsert acc p.1 p.2) d

/-- Round half to even (Python's rounding mode for `round`). -/
def round_half_even (q : ℚ) : ℤ :=
  let f := ⌊q⌋
  let r := q - f
  if r < 1/2 then f
  else if 1/2 < r then f + 1
  else if f % 2 = 0 then f else f + 1

/-- Python `round(q, nd)` idealised over exact rationals. -/
def pyRound (q : ℚ) (nd : ℕ) : ℚ :=
  (round_half_even (q * 10 ^ nd) : ℚ) / 10 ^ nd

/-- `str.upper()` (ASCII, which is all the code feeds it). -/
def upperStr (s : String) : String := String.mk (s.toList.map Char.toUpper)

/-- `s.count(c)` for a single character. -/
def countChar (s : String) (c : Char) : ℕ :=
  (s.toList.filter (fun d => d == c)).length

/-- Number of `CG` dinucleotides, i.e. Python `s.count('CG')` (the pattern
cannot overlap itself, so non-overlapping and sliding counts coincide). -/
def countCG (s : String) : ℕ :=
  ((s.toList.zip s.toList.tail).filter (fun p => p.1 == 'C' && p.2 == 'G')).length

/-- Python slicing `s[a:b]` for non-negative clamped bounds (used by the
sliding-window engine, whose bounds are always in range). -/
def strSlice (s : String) (a b : ℕ) : String :=
  String.mk ((s.toList.drop a).take (b - a))

/-- Full Python slice semantics `s[a:b]` with possibly negative indices
(negative indices count from the end; out-of-range indices are clamped).
Reached by the backend's window loop when the step is negative. -/
def pySliceZ (s : String) (a b : ℤ) : String :=
  let n : ℤ := s.length
  let a2 := (if a < 0 then max 0 (n + a) else min a n).toNat
  let b2 := (if b < 0 then max 0 (n + b) else min b n).toNat
  String.mk ((s.toList.drop a2).take (b2 - a2))

/-- Number of elements of CPython `range(start, stop, step)` for `step ≠ 0`
(the standard closed form). -/
def pyRangeLen (start stop step : ℤ) : ℕ :=
  if 0 < step then (stop - start + step - 1).toNat / step.toNat
  else (start - stop - step - 1).toNat / (-step).toNat

/-- The elements of CPython `range(start, stop, step)` for `step ≠ 0`. -/
def pyRangeList (start stop step : ℤ) : List ℤ :=
  (List.range (pyRangeLen start stop step)).map (fun i : ℕ => start + step * (i : ℤ))

/-- CPython `range(start, stop, step)`: raises `ValueError` when `step = 0`,
otherwise yields the arithmetic progression. -/
def pyRange (start stop step : ℤ) : Except String (List ℤ) :=
  if step = 0 then Except.error "range() arg 3 must not be zero"
  else Except.ok (pyRangeList start stop step)

/-! ## The sliding-window engine (`feature_engineering/windowed.py`,
`sliding_windows` inside the `windowed_feature` wrapper)

The source's `while` loops are embedded with a fuel argument; for any
positive step, fuel `seqLen + 1` bounds the number of iterations, so the
embedding agrees with the source there.  (For `step ≤ 0` the Python loop
does not terminate; no theorem below concerns that regime of this
function.) -/

/-- Forward loop: `start = 0; while start + w <= len: emit; start += step`.
`base` is `(start_index or 0)`, the translation back to absolute
coordinates of the original sequence. -/
def sliding_go_fwd (s : String) (w step base : ℕ) :
    ℕ → ℕ → List String × List (ℕ × ℕ)
  | 0, _ => ([], [])
  | fuel + 1, start =>
    if start + w ≤ s.length then
      let rest := sliding_go_fwd s w step base fuel (start + step)
      (strSlice s start (start + w) :: rest.1,
       (base + start, base + start + w) :: rest.2)
    else ([], [])

/-- Reverse loop (`from_end`): `start = len - w; while start >= 0: emit;
start -= step`. -/
def sliding_go_rev (s : String) (w step base : ℕ) :
    ℕ → ℤ → List String × List (ℕ × ℕ)
  | 0, _ => ([], [])
  | fuel + 1, start =>
    if 0 ≤ start then
      let st := start.toNat
      let rest := sliding_go_rev s w step base fuel (start - step)
      (strSlice s st (st + w) :: rest.1,
       (base + st, base + st + w) :: rest.2)
    else ([], [])

/-- `sliding_windows(sequence, window_size, step, from_end, num_windows,
start_index, end_index)`: returns the window subsequences together with
their `(start, end)` index pairs in absolute coordinates. -/
def sliding_windows (sequence : String) (window_size step : ℕ)
    (from_end : Bool) (num_windows : Option ℕ)
    (start_index end_index : Option ℕ) : List String × List (ℕ × ℕ) :=
  let base := start_index.getD 0
  let seq2 :=
    if start_index.isSome || end_index.isSome then
      strSlice sequence (start_index.getD 0) (end_index.getD sequence.length)
    else sequence
  let r :=
    if from_end then
      sliding_go_rev seq2 window_size step base (seq2.length + 1)
        ((seq2.length : ℤ) - window_size)
    else
      sliding_go_fwd seq2 window_size step base (seq2.length + 1) 0
  match num_windows with
  | some n => (r.1.take n, r.2.take n)
  | none => r

/-! ## External collaborators

`PAObj` models a constructed `Bio.SeqUtils.ProtParam.ProteinAnalysis`
object by the results of its methods (each may raise); `Libs` collects all
out-of-scope scientific collaborators the core invokes, typed by their
documented contracts. -/

/-- A `ProteinAnalysis` object: every method either raises or returns a
value of its documented shape. -/
structure PAObj where
  isoelectric_point : Except String ℚ
  instability_index : Except String ℚ
  flexibility : Except String (List ℚ)
  aromaticity : Except String ℚ
  gravy : Except String ℚ
  molecular_weight : Except String ℚ
  secondary_structure_fraction : Except String (ℚ × ℚ × ℚ)
  molar_extinction_coefficient : Except String (ℤ × ℤ)

/-- The external scientific libraries the orchestration core delegates to. -/
structure Libs where
  hasProtParam : Bool
  mkPA : String → Option PAObj
  translate : String → Except String String
  gc_fraction : String → Except String ℚ
  log2 : ℚ → ℚ
  encScore : String → Except String ℚ
  rcbsScore : String → Except String ℚ
  rscuScore : String → Except String (ℚ ⊕ List (String × ℚ))
  cpbScore : String → Except String ℚ
  dcbsScore : String → Except String ℚ

/-- `Except.map` specialised to building a `PyVal` from a collaborator
result (models `g(pa.method())` where the method call may raise). -/
def exceptMapPy {α : Type} (g : α → PyVal) : Except String α → Except String PyVal
  | .ok a => .ok (g a)
  | .error e => .error e

/-! ## The `windowed_feature` decorator (`feature_engineering/windowed.py`)

The wrapper's parameter list is
`(self, windowed=False, window_size=None, step=1, from_end=False,
num_windows=None, batch_mode=False, start_index=None, end_index=None)`;
a sequence passed positionally therefore binds to `windowed`.  `PyTruthy`
models the two kinds of value callers actually pass there (a bool, or a
string via the positional-binding accident), with Python truthiness. -/

/-- A value bound to the wrapper's `windowed` parameter. -/
inductive PyTruthy where
  | pybool (b : Bool)
  | pystr (s : String)

/-- Python truthiness for `windowed` (`False`/`""` falsy). -/
def truthy : PyTruthy → Bool
  | .pybool b => b
  | .pystr s => s != ""

/-- The instance a sequence-features mixin method runs on: the wrapper
reads `self.sequence`. -/
structure SeqSt where
  sequence : String

/-- The list comprehension `[feature_func(self, seq) for seq in seqs]`:
left-to-right, first raise aborts. -/
def mapExcept (f : String → Except String PyVal) :
    List String → Except String (List PyVal)
  | [] => .ok []
  | s :: t =>
    match f s with
    | .error e => .error e
    | .ok v =>
      match mapExcept f t with
      | .error e => .error e
      | .ok r => .ok (v :: r)

/-- The `batch_mode` result dict: `{name}_{i+1}`, `{name}_{i+1}_start`,
`{name}_{i+1}_end` per window. -/
def batch_entries (fname : String) (pairs : List (PyVal × (ℕ × ℕ))) :
    List (String × PyVal) :=
  pairs.enum.foldl (fun acc x =>
    let i1 := x.1 + 1
    dictInsert (dictInsert (dictInsert acc
      (s!"{fname}_{i1}") x.2.1)
      (s!"{fname}_{i1}_start") (PyVal.int x.2.2.1))
      (s!"{fname}_{i1}_end") (PyVal.int x.2.2.2)) []

/-- The wrapper produced by `windowed_feature(feature_func)` (the inner
feature functions of this repository use only their sequence argument, so
`feature_func` takes the sequence alone). -/
def windowed_feature (fname : String) (feature_func : String → Except String PyVal)
    (self : SeqSt) (windowed : PyTruthy) (window_size : Option ℕ) (step : ℕ)
    (from_end : Bool) (num_windows : Option ℕ) (batch_mode : Bool)
    (start_index end_index : Option ℕ) : Except String PyVal :=
  let wsT : Bool := match window_size with | some w => w != 0 | none => false
  let si :=
    if truthy windowed && wsT then
      sliding_windows self.sequence (window_size.getD 0) step from_end
        num_windows start_index end_index
    else ([self.sequence], [(0, self.sequence.length)])
  match mapExcept feature_func si.1 with
  | .error e => .error e
  | .ok results =>
    if batch_mode && truthy windowed then
      .ok (PyVal.dict (batch_entries fname (results.zip si.2)))
    else if truthy windowed then
      .ok (PyVal.list ((results.zip si.2).map (fun x =>
        PyVal.tuple [x.1, PyVal.int x.2.1, PyVal.int x.2.2])))
    else
      match results with
      | v :: _ => .ok v
      | [] => .error "IndexError: list index out of range"

/-! ## Sequence-composition features
(`feature_engineering/sequence_features.py`) -/

/-- Body of `cpg_oe_ratio`. -/
def cpg_oe_ratio_fn (seq : String) : Except String PyVal :=
  let s := upperStr seq
  let n := s.length
  let cpg := countCG s
  let c := countChar s 'C'
  let g := countChar s 'G'
  let expected : ℚ := if 0 < n then ((c : ℚ) * g) / n else 0
  let oe : ℚ := if 0 < expected then (cpg : ℚ) / expected else 0
  let freq : ℚ := if 1 < n then (cpg : ℚ) / ((n - 1 : ℕ) : ℚ) else 0
  Except.ok (PyVal.dict [("cpg_freq", .num freq), ("cpg_oe_ratio", .num oe)])

/-- Body of `nuc_fraction`; on an empty sequence the division raises
`ZeroDivisionError`, exactly as the Python does. -/
def nuc_fraction_fn (seq : String) : Except String PyVal :=
  let s := upperStr seq
  let length := s.length
  if length = 0 then Except.error "ZeroDivisionError: division by zero"
  else Except.ok (PyVal.dict (['A', 'C', 'G', 'T'].map (fun nuc =>
    (s!"frac_{nuc}", PyVal.num ((countChar s nuc : ℚ) / length)))))

/-- Body of `gc_content` (delegates to `Bio.SeqUtils.gc_fraction`). -/
def gc_content_fn (lib : Libs) (seq : String) : Except String PyVal :=
  exceptMapPy (fun gc => PyVal.dict [("gc_content", .num gc)])
    (lib.gc_fraction (upperStr seq))

/-- Python `s[pos::3]` tails, with explicit fuel so the definition is
kernel-reducible. -/
def everyThirdGo : ℕ → List Char → List Char
  | 0, _ => []
  | _ + 1, [] => []
  | fuel + 1, c :: t => c :: everyThirdGo fuel (t.drop 2)

/-- Every third character of a list. -/
def everyThird (l : List Char) : List Char := everyThirdGo l.length l

/-- Body of `gc_content_positional` (one `gc_fraction` call per codon
position, in order; the first raise aborts). -/
def gc_content_positional_fn (lib : Libs) (seq : String) : Except String PyVal :=
  let su := (upperStr seq).toList
  match lib.gc_fraction (String.mk (everyThird su)) with
  | .error e => .error e
  | .ok g1 =>
    match lib.gc_fraction (String.mk (everyThird (su.drop 1))) with
    | .error e => .error e
    | .ok g2 =>
      match lib.gc_fraction (String.mk (everyThird (su.drop 2))) with
      | .error e => .error e
      | .ok g3 =>
        .ok (PyVal.dict [("gc_content_pos1", .num g1),
          ("gc_content_pos2", .num g2), ("gc_content_pos3", .num g3)])

/-- Body of `gc_skew`. -/
def gc_skew_fn (seq : String) : Except String PyVal :=
  let s := upperStr seq
  let g := countChar s 'G'
  let c := countChar s 'C'
  let denom := g + c
  Except.ok (PyVal.dict
    [("gc_skew", .num (if 0 < denom then ((g : ℚ) - c) / denom else 0))])

/-- Body of `at_skew`. -/
def at_skew_fn (seq : String) : Except String PyVal :=
  let s := upperStr seq
  let a := countChar s 'A'
  let t := countChar s 'T'
  let denom := a + t
  Except.ok (PyVal.dict
    [("at_skew", .num (if 0 < denom then ((a : ℚ) - t) / denom else 0))])

/-- First-occurrence-ordered distinct elements (the iteration order of a
Python `Counter`), with explicit fuel so the definition is
kernel-reducible. -/
def firstUniquesGo : ℕ → List String → List String
  | 0, _ => []
  | _ + 1, [] => []
  | fuel + 1, a :: t => a :: firstUniquesGo fuel (t.filter (fun x => x != a))

/-- First-occurrence-ordered distinct elements of a list. -/
def firstUniques (l : List String) : List String := firstUniquesGo l.length l

/-- The entries `aa_kmers` contributes for a single `k`: the entropy entry
followed by one frequency entry per distinct k-mer in `Counter` order. -/
def aa_kmers_k (lib : Libs) (sAA : String) (k : ℕ) : List (String × PyVal) :=
  let kmers := (List.range (((sAA.length : ℤ) - k + 1).toNat)).map
    (fun i => strSlice sAA i (i + k))
  let uniq := firstUniques kmers
  let total : ℕ := (uniq.map (fun km => kmers.count km)).sum
  let entropy : ℚ := uniq.foldl (fun e km =>
    let p : ℚ := if 0 < total then (kmers.count km : ℚ) / total else 0
    if 0 < p then e - p * lib.log2 p else e) 0
  (s!"kmer_entropy_{k}", PyVal.num entropy) ::
    uniq.map (fun km =>
      (s!"{km}_{k}",
       PyVal.num (if 0 < total then (kmers.count km : ℚ) / total else 0)))

/-- Body of `aa_kmers` (for a plain string argument, which is what this
pipeline passes: the `hasattr(seq, 'amino_acid_sequence')` branch does not
fire for strings). -/
def aa_kmers_fn (lib : Libs) (seq : String) : Except String PyVal :=
  Except.ok (PyVal.dict
    (((List.range 5).map (fun j => j + 1)).foldl
      (fun acc k => dictUpdate acc (aa_kmers_k lib seq k)) []))

/-- Body of `orf_length` for a plain string argument (the
`nucleotide_sequence` / `amino_acid_sequence` attribute branches do not
fire for strings; a plain string is assumed to be nucleotide). -/
def orf_length_fn (seq : String) : Except String PyVal :=
  Except.ok (PyVal.dict [("orf_length_nt", PyVal.int seq.length)])

/-! ## Feature selection dispatch

Both `_extract_features_single` implementations share this loop shape:
with a (truthy) `features_json`, iterate its items, skip entries that are
not dicts or have falsy `enabled`, call the registered function for known
keys and store `None` for unknown keys; with no (or an empty, hence falsy)
`features_json`, run every registered feature. -/

/-- A value of a selection mapping: a dict with the truthiness of its
`enabled` key (`v.get("enabled", True)`), or a non-dict value (skipped by
the `isinstance(v, dict)` guard). -/
inductive SelVal where
  | obj (enabled : Bool)
  | nonObj

/-- The default-selection loop `{k: func() for k, func in feature_funcs.items()}`:
first raise aborts the call. -/
def run_default_table :
    List (String × Except String PyVal) → List (String × PyVal) →
    Except String (List (String × PyVal))
  | [], acc => .ok acc
  | kv :: t, acc =>
    match kv.2 with
    | .ok v => run_default_table t (dictInsert acc kv.1 v)
    | .error e => .error e

/-- The explicit-selection loop:
`results[k] = feature_funcs[k](a) if k in feature_funcs else None`. -/
def run_selected_table (t : List (String × Except String PyVal)) :
    List (String × SelVal) → List (String × PyVal) →
    Except String (List (String × PyVal))
  | [], acc => .ok acc
  | (k, SelVal.obj true) :: sel, acc =>
    (match t.lookup k with
     | some (Except.ok v) => run_selected_table t sel (dictInsert acc k v)
     | some (Except.error e) => Except.error e
     | none => run_selected_table t sel (dictInsert acc k PyVal.pnone))
  | _ :: sel, acc => run_selected_table t sel acc

/-- The static feature table of `SequenceFeaturesMixin._extract_features_single`,
in source order.  Each entry calls the decorated method with the sequence
as first positional argument, which the wrapper binds to `windowed`. -/
def seq_feature_funcs (lib : Libs) (self : SeqSt) (sequence : String) :
    List (String × Except String PyVal) :=
  [("cpg_oe_ratio", windowed_feature "cpg_oe_ratio" cpg_oe_ratio_fn self
      (.pystr sequence) none 1 false none false none none),
   ("nuc_fraction", windowed_feature "nuc_fraction" nuc_fraction_fn self
      (.pystr sequence) none 1 false none false none none),
   ("gc_content", windowed_feature "gc_content" (gc_content_fn lib) self
      (.pystr sequence) none 1 false none false none none),
   ("gc_content_positional", windowed_feature "gc_content_positional"
      (gc_content_positional_fn lib) self (.pystr sequence) none 1 false none false none none),
   ("gc_skew", windowed_feature "gc_skew" gc_skew_fn self
      (.pystr sequence) none 1 false none false none none),
   ("at_skew", windowed_feature "at_skew" at_skew_fn self
      (.pystr sequence) none 1 false none false none none),
   ("aa_kmers", windowed_feature "aa_kmers" (aa_kmers_fn lib) self
      (.pystr sequence) none 1 false none false none none),
   ("orf_length", windowed_feature "orf_length" orf_length_fn self
      (.pystr sequence) none 1 false none false none none)]

/-- `SequenceFeaturesMixin._extract_features_single(sequence, features_json)`.
An empty `features_json` dict is falsy in Python and selects the default
branch, hence the nonempty-list pattern. -/
def seq_extract_features_single (lib : Libs) (self : SeqSt) (sequence : String)
    (features_json : Option (List (String × SelVal))) :
    Except String (List (String × PyVal)) :=
  let t := seq_feature_funcs lib self sequence
  match features_json with
  | some (kv :: sel) => run_selected_table t (kv :: sel) []
  | _ => run_default_table t []

/-! ## Chemical features (`feature_engineering/chemical.py`)

`ChemicalFeaturesMixin` reads and writes the instance attribute
`amino_acid_sequence`; `ChemSt` is that instance state (`none` models the
attribute not existing yet, as on a fresh `ChemicalFeatureExtractor`). -/

/-- The mutable instance state of a `ChemicalFeaturesMixin` object. -/
structure ChemSt where
  amino_acid_sequence : Option String

/-- `s.replace('*', '')`. -/
def removeStops (s : String) : String :=
  String.mk (s.toList.filter (fun c => c != '*'))

/-- `_get_protein_analysis`: `None` when ProtParam is unavailable, the
attribute is missing, the stop-stripped sequence is empty, or the
`ProteinAnalysis` constructor raises (modelled by `mkPA` returning
`none`). -/
def get_protein_analysis (lib : Libs) (st : ChemSt) : Option PAObj :=
  if lib.hasProtParam = false then none
  else
    match st.amino_acid_sequence with
    | none => none
    | some s =>
      let sq := removeStops s
      if sq = "" then none else lib.mkPA sq

/-- The Kyte-Doolittle hydropathy table (`kd.get(aa, 0)`). -/
def kd_value (c : Char) : ℚ :=
  match c with
  | 'A' => 9/5 | 'R' => -9/2 | 'N' => -7/2 | 'D' => -7/2 | 'C' => 5/2
  | 'Q' => -7/2 | 'E' => -7/2 | 'G' => -2/5 | 'H' => -16/5 | 'I' => 9/2
  | 'L' => 19/5 | 'K' => -39/10 | 'M' => 19/10 | 'F' => 14/5 | 'P' => -8/5
  | 'S' => -4/5 | 'T' => -7/10 | 'W' => -9/10 | 'Y' => -13/10 | 'V' => 21/10
  | _ => 0

/-- `ChemicalFeaturesMixin.gravy` (the pure fallback implementation). -/
def chem_gravy (st : ChemSt) : ℚ :=
  match st.amino_acid_sequence with
  | none => 0
  | some s =>
    let sq := removeStops s
    if sq = "" then 0 else (sq.toList.map kd_value).sum / sq.length

/-- `ChemicalFeaturesMixin.aliphatic_index`. -/
def aliphatic_index (st : ChemSt) : ℚ :=
  match st.amino_acid_sequence with
  | none => 0
  | some s =>
    let sq := removeStops s
    if sq = "" then 0
    else ((countChar sq 'A' : ℚ) + 29/10 * countChar sq 'V'
          + 39/10 * ((countChar sq 'I' : ℚ) + countChar sq 'L')) / sq.length * 100

/-- `ChemicalFeaturesMixin.net_charge_per_residue`. -/
def net_charge_per_residue (st : ChemSt) : ℚ :=
  match st.amino_acid_sequence with
  | none => 0
  | some s =>
    let sq := removeStops s
    if sq = "" then 0
    else
      let pos := countChar sq 'K' + countChar sq 'R' + countChar sq 'H'
      let neg := countChar sq 'D' + countChar sq 'E'
      ((pos : ℚ) - neg) / sq.length

/-- The static feature table of
`ChemicalFeaturesMixin._extract_features_single`, in source order.  All
feature lambdas ignore their `args` dict (the `reference_set` merging in
the selection loop only edits that ignored dict), so entries are plain
results. -/
def chem_feature_funcs (pa : Option PAObj) (st : ChemSt) :
    List (String × Except String PyVal) :=
  [("isoelectric_point",
    match pa with
    | some p => exceptMapPy (fun q => PyVal.num q) p.isoelectric_point
    | none => .ok (.num 0)),
   ("instability_index",
    match pa with
    | some p => exceptMapPy (fun q => PyVal.num q) p.instability_index
    | none => .ok (.num 0)),
   ("average_flexibility",
    match pa with
    | some p => exceptMapPy
        (fun l => PyVal.num (if l.isEmpty then 0 else l.sum / l.length))
        p.flexibility
    | none => .ok (.num 0)),
   ("aromaticity_index",
    match pa with
    | some p => exceptMapPy (fun q => PyVal.num q) p.aromaticity
    | none => .ok (.num 0)),
   ("net_charge_per_residue", .ok (.num (net_charge_per_residue st))),
   ("gravy",
    match pa with
    | some p => exceptMapPy (fun q => PyVal.num q) p.gravy
    | none => .ok (.num (chem_gravy st))),
   ("molecular_weight",
    match pa with
    | some p => exceptMapPy (fun q => PyVal.num q) p.molecular_weight
    | none => .ok (.num 0)),
   ("aliphatic_index", .ok (.num (aliphatic_index st))),
   ("helix_frac",
    match pa with
    | some p => exceptMapPy (fun f => PyVal.num f.1) p.secondary_structure_fraction
    | none => .ok (.num 0)),
   ("turn_frac",
    match pa with
    | some p => exceptMapPy (fun f => PyVal.num f.2.1) p.secondary_structure_fraction
    | none => .ok (.num 0)),
   ("sheet_frac",
    match pa with
    | some p => exceptMapPy (fun f => PyVal.num f.2.2) p.secondary_structure_fraction
    | none => .ok (.num 0)),
   ("molar_extinction_reduced",
    match pa with
    | some p => exceptMapPy (fun m => PyVal.int m.1) p.molar_extinction_coefficient
    | none => .ok (.int 0)),
   ("molar_extinction_cystine",
    match pa with
    | some p => exceptMapPy (fun m => PyVal.int m.2) p.molar_extinction_coefficient
    | none => .ok (.int 0))]

/-- `ChemicalFeaturesMixin._extract_features_single(sequence, features_json,
reference_set)`.  The first statement is `self.amino_acid_sequence =
sequence`: the instance state is overwritten before anything is computed,
and stays overwritten whether or not the call raises.  `reference_set` is
only merged into the per-feature args dict, which every chemical feature
lambda ignores. -/
def chem_extract_features_single (lib : Libs) (_st : ChemSt) (sequence : String)
    (features_json : Option (List (String × SelVal))) (_reference_set : Option Unit) :
    Except String (List (String × PyVal)) × ChemSt :=
  let st2 : ChemSt := { amino_acid_sequence := some sequence }
  let pa := get_protein_analysis lib st2
  let t := chem_feature_funcs pa st2
  (match features_json with
   | some (kv :: sel) => run_selected_table t (kv :: sel) []
   | _ => run_default_table t [], st2)

/-! ## CUB features (`feature_engineering/cub.py`) and the reference-set
weight caches (`reference_loader.py` + the inlined `hasattr`/store pattern
in `calc_CAI` / `calc_tAI`) -/

/-- `calc_ENC` (delegates to `codonbias.EffectiveNumberOfCodons`). -/
def calc_ENC (lib : Libs) (seq : String) : Except String ℚ := lib.encScore seq

/-- `calc_RCBS` (delegates to `codonbias.RelativeCodonBiasScore`). -/
def calc_RCBS (lib : Libs) (seq : String) : Except String ℚ := lib.rcbsScore seq

/-- `calc_CPB` (delegates to `codonbias.CodonPairBias`). -/
def calc_CPB (lib : Libs) (seq : String) : Except String ℚ := lib.cpbScore seq

/-- `calc_DCBS` (delegates to `codonbias.DirectionalCodonBiasScore`). -/
def calc_DCBS (lib : Libs) (seq : String) : Except String ℚ := lib.dcbsScore seq

/-- `calc_RSCU`: if the library returns a codon-to-score dict, reduce it to
the arithmetic mean (`float('nan')` for an empty dict); a scalar result is
returned as-is. -/
def calc_RSCU (lib : Libs) (seq : String) : Except String PyVal :=
  match lib.rscuScore seq with
  | .error e => .error e
  | .ok (.inl q) => .ok (PyVal.num q)
  | .ok (.inr d) =>
    if d.isEmpty then .ok PyVal.nanv
    else .ok (PyVal.num ((d.map Prod.snd).sum / d.length))

/-- The metric keys whose weights the cited code caches on the
reference-set instance (`cai_weights` / `tai_weights`). -/
inductive MetricKey where
  | cai
  | tai
deriving DecidableEq

/-- The weight-cache attributes of a `ReferenceSequenceSet` instance:
`none` models `hasattr(reference_set, '<metric>_weights')` being false. -/
structure RefSetState (W : Type) where
  cai_weights : Option W
  tai_weights : Option W

/-- The cached attribute for a metric key. -/
def weight_attr {W : Type} : MetricKey → RefSetState W → Option W
  | .cai, rs => rs.cai_weights
  | .tai, rs => rs.tai_weights

/-- The inlined lazy-compute-and-store pattern of `calc_CAI`/`calc_tAI`:
`if not hasattr(rs, k_weights): rs.k_weights = rs.generate_weights(k)`
then read the attribute.  `generate_weights` is the instance's
corpus-derived weight computation (out-of-scope scientific internals);
the third component counts how many times it was invoked by this call. -/
def get_or_compute_weights {W : Type} (generate_weights : MetricKey → W)
    (k : MetricKey) (rs : RefSetState W) : W × RefSetState W × ℕ :=
  match k with
  | .cai =>
    match rs.cai_weights with
    | some w => (w, rs, 0)
    | none =>
      let w := generate_weights .cai
      (w, { rs with cai_weights := some w }, 1)
  | .tai =>
    match rs.tai_weights with
    | some w => (w, rs, 0)
    | none =>
      let w := generate_weights .tai
      (w, { rs with tai_weights := some w }, 1)

/-- `calc_CAI(seq, reference_set)` for a present reference set (the
`reference_set is None` fallback constructs a throwaway
`ReferenceSequenceSet` instead and caches nothing): get-or-compute the
`cai_weights` attribute, then score the sequence with
`CodonAdaptationIndex(weights)`. -/
def calc_CAI {W : Type} (caiScore : W → String → ℚ)
    (generate_weights : MetricKey → W) (seq : String) (rs : RefSetState W) :
    ℚ × RefSetState W × ℕ :=
  let r := get_or_compute_weights generate_weights .cai rs
  (caiScore r.1 seq, r.2.1, r.2.2)

/-- `calc_tAI(seq, reference_set)` for a present reference set: same
pattern on the `tai_weights` attribute, scoring with
`TrnaAdaptationIndex(weights)`. -/
def calc_tAI {W : Type} (taiScore : W → String → ℚ)
    (generate_weights : MetricKey → W) (seq : String) (rs : RefSetState W) :
    ℚ × RefSetState W × ℕ :=
  let r := get_or_compute_weights generate_weights .tai rs
  (taiScore r.1 seq, r.2.1, r.2.2)

/-! ## Sequence entities (`feature_engineering/sequence.py`) -/

/-- `AminoAcidSequence._validate_amino_acid_sequence`'s character check. -/
def valid_amino_acid (s : String) : Bool :=
  (upperStr s).toList.all (fun c =>
    (['A','C','D','E','F','G','H','I','K','L','M','N','P','Q','R','S','T','V','W','Y','*'] : List Char).contains c)

/-- `NucleotideSequence._validate_nucleotide_sequence`'s character check. -/
def valid_nucleotide (s : String) : Bool :=
  (upperStr s).toList.all (fun c => (['A','C','G','T','U'] : List Char).contains c)

/-- An `AminoAcidSequence` object (its chemical-mixin state is the
`amino_acid_sequence` attribute set by `__init__`). -/
structure AminoAcidSeq where
  amino_acid_sequence : String

/-- `AminoAcidSequence.__init__`: uppercase, then validate (raises
`ValueError` on characters outside the amino-acid alphabet). -/
def amino_acid_sequence_new (s : String) : Except String AminoAcidSeq :=
  let u := upperStr s
  if valid_amino_acid u then Except.ok ⟨u⟩
  else Except.error "Invalid amino acid sequence: contains non-amino acid characters"

/-- A `NucleotideSequence` object with its eagerly-computed translation. -/
structure NucSeq where
  nucleotide_sequence : String
  amino_acid_sequence : AminoAcidSeq

/-- `NucleotideSequence.__init__`: uppercase, translate (Biopython
`Seq.translate(to_stop=True)`, an external call that may raise), build the
owned `AminoAcidSequence`, and only then validate the nucleotide
characters — translation precedes validation in the source. -/
def nucleotide_sequence_new (lib : Libs) (s : String) : Except String NucSeq :=
  let u := upperStr s
  match lib.translate u with
  | .error e => .error e
  | .ok aaStr =>
    match amino_acid_sequence_new aaStr with
    | .error e => .error e
    | .ok aa =>
      if valid_nucleotide u then Except.ok ⟨u, aa⟩
      else Except.error "Invalid nucleotide sequence: contains non-nucleotide characters"

/-! ## The FastAPI backend (`backend/main.py`) -/

/-- Request model `SequenceInput` (the unused `name`/`annotations` fields
are omitted). -/
structure SequenceInput where
  id : String
  sequence : String

/-- Request model `PanelConfig`. -/
structure PanelConfig where
  enabled : Bool

/-- Request model `PanelsConfig` (`structurePanel` stands for the source's
`structure` field, which is a reserved word in Lean). -/
structure PanelsConfig where
  sequence : Option PanelConfig
  chemical : Option PanelConfig
  disorder : Option PanelConfig
  structurePanel : Option PanelConfig
  motif : Option PanelConfig
  codonUsage : Option PanelConfig

/-- Request model `WindowConfig` (defaults `enabled=False`, `windowSize=100`,
`stepSize=10`). -/
structure WindowConfig where
  enabled : Bool
  windowSize : ℤ
  stepSize : ℤ

/-- Request model `FeatureRequest` (`referenceSet` is accepted but never
read by the endpoint, and is omitted). -/
structure FeatureRequest where
  sequences : List SequenceInput
  panels : PanelsConfig
  window : Option WindowConfig

/-- Response model `SequenceError`. -/
structure SequenceError where
  sequenceId : String
  panel : String
  error : String

/-- Response model `FeatureResult`. -/
structure FeatureResult where
  sequenceId : String
  windowStart : Option ℤ
  windowEnd : Option ℤ
  features : List (String × PyVal)

/-- Response model `FeatureResponse`.  The `metadata` dict is flattened
into fields; the wall-clock `computeTimeMs` entry is not representable in
this embedding and is omitted. -/
structure FeatureResponse where
  success : Bool
  mode : String
  results : List FeatureResult
  totalSequences : ℕ
  panelsComputed : List String
  totalWindows : Option ℕ
  windowSizeMeta : Option ℤ
  stepSizeMeta : Option ℤ
  errors : Option (List SequenceError)

/-- `panels.x and panels.x.enabled` for an optional panel config. -/
def panelOn : Option PanelConfig → Bool
  | some pc => pc.enabled
  | none => false

/-- `detect_sequence_type`: nucleotide iff every non-`*` character of the
uppercased sequence is in `ACGTU`. -/
def detect_sequence_type (sequence : String) : String :=
  if ((upperStr sequence).toList.filter (fun c => c != '*')).all
      (fun c => (['A','C','G','T','U'] : List Char).contains c)
  then "nucleotide" else "amino_acid"

/-- `SequenceFeatureExtractor.extract`: pure composition counts; total. -/
def sequence_extractor_extract (sequence : String) : List (String × PyVal) :=
  let su := upperStr sequence
  let length := su.length
  let a := countChar su 'A'
  let t := countChar su 'T' + countChar su 'U'
  let g := countChar su 'G'
  let c := countChar su 'C'
  let gc : ℚ := if 0 < length then ((g : ℚ) + c) / length * 100 else 0
  let atc : ℚ := if 0 < length then ((a : ℚ) + t) / length * 100 else 0
  [("gc_content", PyVal.num (pyRound gc 2)),
   ("at_content", PyVal.num (pyRound atc 2)),
   ("length", PyVal.int length),
   ("a_count", PyVal.int a),
   ("t_count", PyVal.int t),
   ("g_count", PyVal.int g),
   ("c_count", PyVal.int c)]

/-- `round(v, 4) if isinstance(v, float) else v`. -/
def round_if_float : PyVal → PyVal
  | .num q => .num (pyRound q 4)
  | v => v

/-- `ChemicalFeatureExtractor.extract`: call the mixin's
`_extract_features_single` with default selection, round float values, and
collapse any raise to `{"error": str(e)}`.  The module-level extractor
instance's state is threaded explicitly. -/
def chemical_extractor_extract (lib : Libs) (st : ChemSt) (s : String) :
    List (String × PyVal) × ChemSt :=
  match chem_extract_features_single lib st s none none with
  | (Except.ok fs, st2) => (fs.map (fun kv => (kv.1, round_if_float kv.2)), st2)
  | (Except.error e, st2) => ([("error", PyVal.str e)], st2)

/-- The output of `ChemicalFeatureExtractor.extract`, which does not depend
on the extractor's prior state (`_extract_features_single` overwrites
`self.amino_acid_sequence` before computing anything). -/
def chemical_extract_run (lib : Libs) (s : String) : List (String × PyVal) :=
  (chemical_extractor_extract lib { amino_acid_sequence := none } s).1

/-- The result of `ChemicalFeatureExtractor.extract` is independent of the
incoming instance state. -/
theorem chemical_extract_state_irrelevant (lib : Libs) (st : ChemSt) (s : String) :
    (chemical_extractor_extract lib st s).1 = chemical_extract_run lib s := rfl

/-- The `try` body of `CUBFeatureExtractor.extract`: the five
reference-free CUB metrics, computed in source order (the first raise
aborts). -/
def cub_extract_body (lib : Libs) (s : String) :
    Except String (List (String × PyVal)) :=
  match calc_ENC lib s with
  | .error e => .error e
  | .ok enc =>
    match calc_RCBS lib s with
    | .error e => .error e
    | .ok rcbs =>
      match calc_RSCU lib s with
      | .error e => .error e
      | .ok rscu =>
        match calc_CPB lib s with
        | .error e => .error e
        | .ok cpb =>
          match calc_DCBS lib s with
          | .error e => .error e
          | .ok dcbs =>
            .ok [("enc", PyVal.num enc), ("rcbs", PyVal.num rcbs),
                 ("rscu", rscu), ("cpb", PyVal.num cpb),
                 ("dcbs", PyVal.num dcbs)]

/-- `CUBFeatureExtractor.extract`: round float values, collapse any raise
to `{"error": str(e)}`. -/
def cub_extractor_extract (lib : Libs) (s : String) : List (String × PyVal) :=
  match cub_extract_body lib s with
  | .ok fs => fs.map (fun kv => (kv.1, round_if_float kv.2))
  | .error e => [("error", PyVal.str e)]

/-- `extract_global_features(sequence, seq_id, panels)`: total — every
raise inside it is caught (`try/except: pass` around the
nucleotide-to-protein translation; the chemical and CUB extractors catch
internally). -/
def extract_global_features (lib : Libs) (sequence seq_id : String)
    (panels : PanelsConfig) : FeatureResult :=
  let seq_type := detect_sequence_type sequence
  let f0 : List (String × PyVal) := []
  let f1 :=
    if panelOn panels.sequence then dictUpdate f0 (sequence_extractor_extract sequence)
    else f0
  let f2 :=
    if panelOn panels.chemical then
      (if seq_type = "nucleotide" then
        match nucleotide_sequence_new lib sequence with
        | .ok nuc =>
          let aa_seq := nuc.amino_acid_sequence.amino_acid_sequence
          if aa_seq ≠ "" then dictUpdate f1 (chemical_extract_run lib aa_seq) else f1
        | .error _ => f1
      else dictUpdate f1 (chemical_extract_run lib sequence))
    else f1
  let f3 :=
    if panelOn panels.codonUsage ∧ seq_type = "nucleotide" then
      dictUpdate f2 (cub_extractor_extract lib sequence)
    else f2
  ⟨seq_id, none, none, f3⟩

/-- One window row of `extract_window_features`. -/
def window_row (lib : Libs) (panels : PanelsConfig) (seq_id sequence seq_type : String)
    (window_size : ℤ) (start : ℤ) : FeatureResult :=
  let wend := start + window_size
  let window_seq := pySliceZ sequence start wend
  let f0 : List (String × PyVal) := []
  let f1 :=
    if panelOn panels.sequence then dictUpdate f0 (sequence_extractor_extract window_seq)
    else f0
  let f2 :=
    if panelOn panels.chemical ∧ seq_type = "amino_acid" then
      dictUpdate f1 (chemical_extract_run lib window_seq)
    else f1
  let f3 :=
    if panelOn panels.codonUsage ∧ seq_type = "nucleotide" ∧ 3 ≤ window_seq.length then
      dictUpdate f2 (cub_extractor_extract lib window_seq)
    else f2
  ⟨seq_id, some start, some wend, f3⟩

/-- `extract_window_features(sequence, seq_id, panels, window_size,
step_size)`: one row per `range(0, len(sequence) - window_size + 1,
step_size)` start; `range` raises `ValueError` when `step_size == 0`. -/
def extract_window_features (lib : Libs) (sequence seq_id : String)
    (panels : PanelsConfig) (window_size step_size : ℤ) :
    Except String (List FeatureResult) :=
  let seq_type := detect_sequence_type sequence
  match pyRange 0 ((sequence.length : ℤ) - window_size + 1) step_size with
  | .error e => .error e
  | .ok starts =>
    .ok (starts.map (window_row lib panels seq_id sequence seq_type window_size))

/-- `request.window or WindowConfig()`. -/
def get_window_config (request : FeatureRequest) : WindowConfig :=
  match request.window with
  | some wc => wc
  | none => ⟨false, 100, 10⟩

/-- The body of the per-sequence `for` loop of the `/extract-features`
endpoint, threading `(results, errors, total_windows)`.  In windowed mode
the global row is appended before `extract_window_features` runs, so a
raise there still leaves the global row in `results` and adds an error
entry tagged with the sequence id; global-mode processing is total. -/
def extract_features_step (lib : Libs) (panels : PanelsConfig) (wc : WindowConfig)
    (acc : List FeatureResult × List SequenceError × ℕ) (seq : SequenceInput) :
    List FeatureResult × List SequenceError × ℕ :=
  if wc.enabled then
    let g := extract_global_features lib seq.sequence seq.id panels
    match extract_window_features lib seq.sequence seq.id panels wc.windowSize wc.stepSize with
    | .ok wrs => (acc.1 ++ (g :: wrs), acc.2.1, acc.2.2 + wrs.length)
    | .error e => (acc.1 ++ [g], acc.2.1 ++ [⟨seq.id, "unknown", e⟩], acc.2.2)
  else
    (acc.1 ++ [extract_global_features lib seq.sequence seq.id panels],
     acc.2.1, acc.2.2)

/-- The `/extract-features` endpoint `extract_features(request)`. -/
def extract_features (lib : Libs) (request : FeatureRequest) : FeatureResponse :=
  let enabled_panels :=
    (if panelOn request.panels.sequence then ["sequence"] else []) ++
    (if panelOn request.panels.chemical then ["chemical"] else []) ++
    (if panelOn request.panels.disorder then ["disorder"] else []) ++
    (if panelOn request.panels.structurePanel then ["structure"] else []) ++
    (if panelOn request.panels.motif then ["motif"] else []) ++
    (if panelOn request.panels.codonUsage then ["codonUsage"] else [])
  let window_config := get_window_config request
  let mode := if window_config.enabled then "windowed" else "global"
  let acc := request.sequences.foldl
    (extract_features_step lib request.panels window_config) ([], [], 0)
  { success := true
    mode := mode
    results := acc.1
    totalSequences := request.sequences.length
    panelsComputed := enabled_panels
    totalWindows := if window_config.enabled then some acc.2.2 else none
    windowSizeMeta := if window_config.enabled then some window_config.windowSize else none
    stepSizeMeta := if window_config.enabled then some window_config.stepSize else none
    errors := if acc.2.1.isEmpty then none else some acc.2.1 }

/-! ## Concrete collaborator instances used by witnesses and
counterexamples -/

/-- A trivial collaborator instance (ProtParam unavailable, all scores 0). -/
def libZero : Libs :=
  { hasProtParam := false
    mkPA := fun _ => none
    translate := fun _ => Except.ok ""
    gc_fraction := fun _ => Except.ok 0
    log2 := fun _ => 0
    encScore := fun _ => Except.ok 0
    rcbsScore := fun _ => Except.ok 0
    rscuScore := fun _ => Except.ok (Sum.inl 0)
    cpbScore := fun _ => Except.ok 0
    dcbsScore := fun _ => Except.ok 0 }

/-- A `ProteinAnalysis` object whose `isoelectric_point()` raises. -/
def paBoom : PAObj :=
  { isoelectric_point := Except.error "boom"
    instability_index := Except.ok 0
    flexibility := Except.ok []
    aromaticity := Except.ok 0
    gravy := Except.ok 0
    molecular_weight := Except.ok 0
    secondary_structure_fraction := Except.ok (0, 0, 0)
    molar_extinction_coefficient := Except.ok (0, 0) }

/-- Collaborators where the first chemical feature computation raises. -/
def libBoom : Libs := { libZero with hasProtParam := true, mkPA := fun _ => some paBoom }

/-- Collaborators where the ENC score raises. -/
def libEncBad : Libs := { libZero with encScore := fun _ => Except.error "ebad" }

/-- Panels configuration with every panel absent (all disabled). -/
def panelsOff : PanelsConfig := ⟨none, none, none, none, none, none⟩

/-! ## Shared lemmas -/

/-- A key absent from an association list's key set looks up to `none`. -/
theorem lookup_eq_none_of_not_mem_keys {α : Type} (t : List (String × α)) (k : String)
    (h : k ∉ t.map Prod.fst) : t.lookup k = none := by
  induction t with
  | nil => rfl
  | cons p t ih =>
    obtain ⟨k1, v1⟩ := p
    simp only [List.map_cons, List.mem_cons, not_or] at h
    obtain ⟨h1, h2⟩ := h
    have hb : (k == k1) = false := beq_eq_false_iff_ne.mpr h1
    simp [List.lookup, hb, ih h2]

/-- `exceptMapPy g` can only return values of the form `g a`. -/
theorem exceptMapPy_ok_scalar {α : Type} (g : α → PyVal)
    (hg : ∀ a, (g a).isScalar = true) (x : Except String α) (v : PyVal)
    (h : exceptMapPy g x = Except.ok v) : v.isScalar = true := by
  cases x with
  | error e => simp [exceptMapPy] at h
  | ok a =>
    simp only [exceptMapPy, Except.ok.injEq] at h
    rw [← h]
    exact hg a

/-- `dictInsert` preserves "all values scalar" when the inserted value is
scalar. -/
theorem dictInsert_all_scalar (d : List (String × PyVal)) (k : String) (v : PyVal)
    (hd : ∀ p ∈ d, (p.2 : PyVal).isScalar = true) (hv : v.isScalar = true) :
    ∀ p ∈ dictInsert d k v, (p.2 : PyVal).isScalar = true := by
  intro p hp
  unfold dictInsert at hp
  by_cases hany : d.any (fun q => q.1 == k)
  · rw [if_pos hany] at hp
    obtain ⟨q, hq, hpq⟩ := List.mem_map.mp hp
    by_cases hqk : (q.1 == k) = true
    · rw [if_pos hqk] at hpq
      rw [← hpq]
      exact hv
    · rw [if_neg hqk] at hpq
      rw [← hpq]
      exact hd q hq
  · rw [if_neg hany] at hp
    rcases List.mem_append.mp hp with hmem | hmem
    · exact hd p hmem
    · rcases List.mem_singleton.mp hmem with rfl
      exact hv

/-- The default-selection loop preserves value scalarity. -/
theorem run_default_table_scalar :
    ∀ (t : List (String × Except String PyVal)) (acc m : List (String × PyVal)),
    (∀ kv ∈ t, ∀ v, kv.2 = Except.ok v → v.isScalar = true) →
    (∀ p ∈ acc, (p.2 : PyVal).isScalar = true) →
    run_default_table t acc = Except.ok m →
    ∀ p ∈ m, (p.2 : PyVal).isScalar = true := by
  intro t
  induction t with
  | nil =>
    intro acc m _ hacc h
    simp only [run_default_table, Except.ok.injEq] at h
    rw [← h]
    exact hacc
  | cons kv t ih =>
    intro acc m ht hacc h
    cases hkv : kv.2 with
    | error e => rw [run_default_table, hkv] at h; cases h
    | ok v =>
      rw [run_default_table, hkv] at h
      exact ih _ _ (fun kv2 h2 => ht kv2 (List.mem_cons_of_mem _ h2))
        (dictInsert_all_scalar _ _ _ hacc
          (ht kv (List.mem_cons_self _ _) v hkv)) h

/-- Every chemical feature table entry returns a scalar when it does not
raise. -/
theorem chem_funcs_scalar (pa : Option PAObj) (st : ChemSt) :
    ∀ kv ∈ chem_feature_funcs pa st, ∀ v, kv.2 = Except.ok v → v.isScalar = true := by
  intro kv hkv v hv
  cases pa with
  | none =>
    simp only [chem_feature_funcs, List.mem_cons, List.not_mem_nil, or_false] at hkv
    rcases hkv with rfl|rfl|rfl|rfl|rfl|rfl|rfl|rfl|rfl|rfl|rfl|rfl|rfl <;>
      (injection hv with h; rw [← h]; rfl)
  | some p =>
    simp only [chem_feature_funcs, List.mem_cons, List.not_mem_nil, or_false] at hkv
    rcases hkv with rfl|rfl|rfl|rfl|rfl|rfl|rfl|rfl|rfl|rfl|rfl|rfl|rfl <;>
      first
      | (injection hv with h; rw [← h]; rfl)
      | (refine exceptMapPy_ok_scalar _ ?_ _ _ hv; intro a; rfl)

/-- `calc_RSCU` always produces a scalar (a float or `nan`). -/
theorem calc_RSCU_scalar (lib : Libs) (s : String) (v : PyVal)
    (h : calc_RSCU lib s = Except.ok v) : v.isScalar = true := by
  unfold calc_RSCU at h
  cases hr : lib.rscuScore s with
  | error e => rw [hr] at h; simp at h
  | ok d =>
    rw [hr] at h
    cases d with
    | inl q => simp at h; subst h; rfl
    | inr l =>
      by_cases he : l.isEmpty = true
      · simp [he] at h; subst h; rfl
      · simp [he] at h; subst h; rfl

/-- Rounding does not change whether a value is scalar. -/
theorem round_if_float_scalar (v : PyVal) :
    (round_if_float v).isScalar = v.isScalar := by
  cases v <;> rfl

/-- The key set of the chemical feature table. -/
def chem_feature_keys : List String :=
  ["isoelectric_point", "instability_index", "average_flexibility",
   "aromaticity_index", "net_charge_per_residue", "gravy", "molecular_weight",
   "aliphatic_index", "helix_frac", "turn_frac", "sheet_frac",
   "molar_extinction_reduced", "molar_extinction_cystine"]

/-- The chemical table's keys do not depend on the collaborators or state. -/
theorem chem_funcs_keys (pa : Option PAObj) (st : ChemSt) :
    (chem_feature_funcs pa st).map Prod.fst = chem_feature_keys := by
  cases pa <;> rfl

/-- The key set of the sequence-features table. -/
def seq_feature_keys : List String :=
  ["cpg_oe_ratio", "nuc_fraction", "gc_content", "gc_content_positional",
   "gc_skew", "at_skew", "aa_kmers", "orf_length"]

/-- The sequence-features table's keys do not depend on the collaborators,
instance or argument. -/
theorem seq_funcs_keys (lib : Libs) (self : SeqSt) (s : String) :
    (seq_feature_funcs lib self s).map Prod.fst = seq_feature_keys := rfl

/-- A two-entry selection with one unknown and one known key: the unknown
key becomes a `None`-valued entry, the known key its computed value. -/
theorem run_selected_two (t : List (String × Except String PyVal))
    (u r : String) (rv : PyVal)
    (hu : t.lookup u = none) (hr : t.lookup r = some (Except.ok rv)) :
    run_selected_table t [(u, SelVal.obj true), (r, SelVal.obj true)] [] =
      Except.ok [(u, PyVal.pnone), (r, rv)] := by
  have hur : (u == r) = false := by
    refine beq_eq_false_iff_ne.mpr ?_
    intro hh
    rw [hh, hr] at hu
    cases hu
  simp [run_selected_table, hu, hr, dictInsert, hur]

/-! ## Claim theorems -/

/-- C3: if the per-call computation inside an extractor raises, the
extractor's `extract` returns exactly the single-entry map
`{"error": message}` — partial results are discarded and the error never
crosses the extractor boundary (both `extract` wrappers are total by
construction: their return type is a plain attribute map).  Holds for the
chemical and CUB extractors of `backend/main.py`; the sequence extractor
there has no failing computation to catch. -/
theorem claim3_error_collapse :
    (∀ (lib : Libs) (st : ChemSt) (s e : String),
      (chem_extract_features_single lib st s none none).1 = Except.error e →
      (chemical_extractor_extract lib st s).1 = [("error", PyVal.str e)]) ∧
    (∀ (lib : Libs) (s e : String),
      cub_extract_body lib s = Except.error e →
      cub_extractor_extract lib s = [("error", PyVal.str e)]) := by
  constructor
  · intro lib st s e h
    have hpair : chem_extract_features_single lib st s none none =
        (Except.error e, { amino_acid_sequence := some s }) :=
      Prod.ext_iff.mpr ⟨h, rfl⟩
    simp [chemical_extractor_extract, hpair]
  · intro lib s e h
    simp [cub_extractor_extract, h]

/-- C3 witness: with collaborators whose first chemical computation raises
`"boom"` and whose ENC score raises `"ebad"`, both extractors collapse to
the single error entry. -/
theorem claim3_witness :
    (chem_extract_features_single libBoom ⟨none⟩ "MV" none none).1 = Except.error "boom" ∧
    (chemical_extractor_extract libBoom ⟨none⟩ "MV").1 = [("error", PyVal.str "boom")] ∧
    cub_extract_body libEncBad "ATG" = Except.error "ebad" ∧
    cub_extractor_extract libEncBad "ATG" = [("error", PyVal.str "ebad")] :=
  ⟨rfl, claim3_error_collapse.1 libBoom ⟨none⟩ "MV" "boom" rfl,
   rfl, claim3_error_collapse.2 libEncBad "ATG" "ebad" rfl⟩

/-- C4: for a reference-set instance whose cache attribute for a metric key
is unset, the first weight request invokes the weight computation exactly
once, returns its result and stores it on the instance; the second request
on the resulting instance returns the stored value with zero invocations;
any other fresh instance computes independently; and the same holds for
`calc_CAI` built on this pattern. -/
theorem claim4_reference_cache {W : Type} (generate_weights : MetricKey → W)
    (k : MetricKey) (rs : RefSetState W) (h : weight_attr k rs = none) :
    (get_or_compute_weights generate_weights k rs).2.2 = 1 ∧
    (get_or_compute_weights generate_weights k rs).1 = generate_weights k ∧
    weight_attr k (get_or_compute_weights generate_weights k rs).2.1 =
      some (generate_weights k) ∧
    get_or_compute_weights generate_weights k
        (get_or_compute_weights generate_weights k rs).2.1 =
      (generate_weights k, (get_or_compute_weights generate_weights k rs).2.1, 0) ∧
    (∀ rs2 : RefSetState W, weight_attr k rs2 = none →
      (get_or_compute_weights generate_weights k rs2).2.2 = 1) ∧
    (∀ (caiScore : W → String → ℚ) (seq : String) (rs3 : RefSetState W),
      rs3.cai_weights = none →
      (calc_CAI caiScore generate_weights seq rs3).2.2 = 1 ∧
      (calc_CAI caiScore generate_weights seq
        (calc_CAI caiScore generate_weights seq rs3).2.1).2.2 = 0) := by
  refine ⟨?_, ?_, ?_, ?_, ?_, ?_⟩
  · cases k <;> simp [weight_attr] at h <;> simp [get_or_compute_weights, h]
  · cases k <;> simp [weight_attr] at h <;> simp [get_or_compute_weights, h]
  · cases k <;> simp [weight_attr] at h <;> simp [get_or_compute_weights, weight_attr, h]
  · cases k <;> simp [weight_attr] at h <;> simp [get_or_compute_weights, h]
  · intro rs2 h2
    cases k <;> simp [weight_attr] at h2 <;> simp [get_or_compute_weights, h2]
  · intro caiScore seq rs3 h3
    constructor
    · simp [calc_CAI, get_or_compute_weights, h3]
    · simp [calc_CAI, get_or_compute_weights, h3]

/-- C4 witness: a fresh two-field cache over `W := ℕ` with
`generate_weights _ = 7`, at the `cai` key. -/
theorem claim4_witness :
    weight_attr MetricKey.cai (⟨none, none⟩ : RefSetState ℕ) = none ∧
    ((get_or_compute_weights (fun _ => 7) MetricKey.cai ⟨none, none⟩).2.2 = 1 ∧
     (get_or_compute_weights (fun _ => 7) MetricKey.cai ⟨none, none⟩).1 = (fun _ : MetricKey => 7) MetricKey.cai ∧
     weight_attr MetricKey.cai (get_or_compute_weights (fun _ => 7) MetricKey.cai ⟨none, none⟩).2.1 =
       some ((fun _ : MetricKey => 7) MetricKey.cai) ∧
     get_or_compute_weights (fun _ => 7) MetricKey.cai
         (get_or_compute_weights (fun _ => 7) MetricKey.cai ⟨none, none⟩).2.1 =
       ((fun _ : MetricKey => 7) MetricKey.cai,
        (get_or_compute_weights (fun _ => 7) MetricKey.cai ⟨none, none⟩).2.1, 0) ∧
     (∀ rs2 : RefSetState ℕ, weight_attr MetricKey.cai rs2 = none →
       (get_or_compute_weights (fun _ => 7) MetricKey.cai rs2).2.2 = 1) ∧
     (∀ (caiScore : ℕ → String → ℚ) (seq : String) (rs3 : RefSetState ℕ),
       rs3.cai_weights = none →
       (calc_CAI caiScore (fun _ => 7) seq rs3).2.2 = 1 ∧
       (calc_CAI caiScore (fun _ => 7) seq
         (calc_CAI caiScore (fun _ => 7) seq rs3).2.1).2.2 = 0)) :=
  ⟨rfl, claim4_reference_cache (fun _ => 7) MetricKey.cai ⟨none, none⟩ rfl⟩

/-- C5 counterexample: the claim says an unrecognized selection key yields
*no entry*; in the code `results[k] = ... if k in feature_funcs else None`
stores a `None`-valued entry under the unrecognized key.  Concretely, a
selection containing only the unknown key `"bogus"` produces the map
`{"bogus": None}`, whose lookup of `"bogus"` is not absent. -/
theorem claim5_counterexample :
    (chem_extract_features_single libZero ⟨none⟩ "MV"
      (some [("bogus", SelVal.obj true)]) none).1 =
      Except.ok [("bogus", PyVal.pnone)] ∧
    ([("bogus", PyVal.pnone)].lookup "bogus" ≠ (none : Option PyVal)) :=
  ⟨rfl, by simp⟩

/-- C5 (amended): a selection containing an unrecognized feature key raises
no error and maps that key to a `None`-valued entry (rather than omitting
it), while a recognized enabled key in the same selection still produces
its computed result.  Shown for the chemical and the sequence-features
extractors, for any collaborators, instance state and sequence. -/
theorem claim5_amended :
    (∀ (lib : Libs) (st : ChemSt) (s u r : String) (rv : PyVal),
      u ∉ chem_feature_keys →
      (chem_feature_funcs (get_protein_analysis lib ⟨some s⟩) ⟨some s⟩).lookup r =
        some (Except.ok rv) →
      (chem_extract_features_single lib st s
        (some [(u, SelVal.obj true), (r, SelVal.obj true)]) none).1 =
        Except.ok [(u, PyVal.pnone), (r, rv)]) ∧
    (∀ (lib : Libs) (self : SeqSt) (s u r : String) (rv : PyVal),
      u ∉ seq_feature_keys →
      (seq_feature_funcs lib self s).lookup r = some (Except.ok rv) →
      seq_extract_features_single lib self s
        (some [(u, SelVal.obj true), (r, SelVal.obj true)]) =
        Except.ok [(u, PyVal.pnone), (r, rv)]) := by
  constructor
  · intro lib st s u r rv hu hr
    have hu2 : (chem_feature_funcs (get_protein_analysis lib ⟨some s⟩) ⟨some s⟩).lookup u = none := by
      refine lookup_eq_none_of_not_mem_keys _ _ ?_
      rw [chem_funcs_keys]
      exact hu
    have := run_selected_two _ u r rv hu2 hr
    simpa [chem_extract_features_single] using this
  · intro lib self s u r rv hu hr
    have hu2 : (seq_feature_funcs lib self s).lookup u = none := by
      refine lookup_eq_none_of_not_mem_keys _ _ ?_
      rw [seq_funcs_keys]
      exact hu
    have := run_selected_two _ u r rv hu2 hr
    simpa [seq_extract_features_single] using this

/-- C5 witness: unknown key `"bogus"` together with the known keys
`"molar_extinction_reduced"` (chemical) and `"orf_length"` (sequence), on
concrete collaborators. -/
theorem claim5_witness :
    ("bogus" ∉ chem_feature_keys) ∧
    ((chem_feature_funcs (get_protein_analysis libZero ⟨some "MV"⟩) ⟨some "MV"⟩).lookup
      "molar_extinction_reduced" = some (Except.ok (PyVal.int 0))) ∧
    ((chem_extract_features_single libZero ⟨none⟩ "MV"
      (some [("bogus", SelVal.obj true), ("molar_extinction_reduced", SelVal.obj true)])
      none).1 = Except.ok [("bogus", PyVal.pnone), ("molar_extinction_reduced", PyVal.int 0)]) ∧
    ("bogus" ∉ seq_feature_keys) ∧
    ((seq_feature_funcs libZero ⟨"ACGT"⟩ "AC").lookup "orf_length" =
      some (Except.ok (PyVal.list [PyVal.tuple
        [PyVal.dict [("orf_length_nt", PyVal.int 4)], PyVal.int 0, PyVal.int 4]]))) ∧
    (seq_extract_features_single libZero ⟨"ACGT"⟩ "AC"
      (some [("bogus", SelVal.obj true), ("orf_length", SelVal.obj true)]) =
      Except.ok [("bogus", PyVal.pnone),
        ("orf_length", PyVal.list [PyVal.tuple
          [PyVal.dict [("orf_length_nt", PyVal.int 4)], PyVal.int 0, PyVal.int 4]])]) :=
  ⟨by decide, rfl,
   claim5_amended.1 libZero ⟨none⟩ "MV" "bogus" "molar_extinction_reduced"
     (PyVal.int 0) (by decide) rfl,
   by decide, rfl,
   claim5_amended.2 libZero ⟨"ACGT"⟩ "AC" "bogus" "orf_length"
     (PyVal.list [PyVal.tuple
       [PyVal.dict [("orf_length_nt", PyVal.int 4)], PyVal.int 0, PyVal.int 4]])
     (by decide) rfl⟩

/-- C8 counterexample: the claim says every value in a returned attribute
map is a scalar; but `SequenceFeaturesMixin._extract_features_single`, via
the `windowed_feature` positional-binding of the sequence to `windowed`,
stores list-of-tuple values.  Concretely, the default call on an instance
with `sequence = "AAAA"` maps `"nuc_fraction"` to the Python value
`[({'frac_A': 1.0, 'frac_C': 0.0, 'frac_G': 0.0, 'frac_T': 0.0}, 0, 4)]`
— a raw list containing a tuple containing a dict, which is not a
scalar. -/
theorem claim8_counterexample :
    (match seq_extract_features_single libZero ⟨"AAAA"⟩ "AAAA" none with
     | .ok m => m.lookup "nuc_fraction"
     | .error _ => none) =
      some (PyVal.list [PyVal.tuple [PyVal.dict
        [("frac_A", PyVal.num ((4 : ℚ)/4)), ("frac_C", PyVal.num ((0 : ℚ)/4)),
         ("frac_G", PyVal.num ((0 : ℚ)/4)), ("frac_T", PyVal.num ((0 : ℚ)/4))],
        PyVal.int 0, PyVal.int 4]]) ∧
    (PyVal.list [PyVal.tuple [PyVal.dict
        [("frac_A", PyVal.num ((4 : ℚ)/4)), ("frac_C", PyVal.num ((0 : ℚ)/4)),
         ("frac_G", PyVal.num ((0 : ℚ)/4)), ("frac_T", PyVal.num ((0 : ℚ)/4))],
        PyVal.int 0, PyVal.int 4]]).isScalar = false :=
  ⟨rfl, rfl⟩

/-- C8 (amended): the scalar-values invariant holds for the backend's
three extractors — the sequence-composition extractor, the chemical
extractor and the CUB extractor of `backend/main.py` (dict-shaped RSCU
results are reduced to a mean, errors collapse to a string entry) — for
every sequence, collaborator set and incoming state; it fails for
`SequenceFeaturesMixin._extract_features_single`, whose values are
windowed lists of `(value, start, end)` tuples (see the
counterexample). -/
theorem claim8_amended :
    (∀ s : String,
      (sequence_extractor_extract s).all (fun kv => kv.2.isScalar) = true) ∧
    (∀ (lib : Libs) (st : ChemSt) (s : String),
      ((chemical_extractor_extract lib st s).1).all (fun kv => kv.2.isScalar) = true) ∧
    (∀ (lib : Libs) (s : String),
      (cub_extractor_extract lib s).all (fun kv => kv.2.isScalar) = true) := by
  refine ⟨fun s => rfl, ?_, ?_⟩
  · intro lib st s
    rw [List.all_eq_true]
    intro kv hkv
    revert hkv
    unfold chemical_extractor_extract
    cases hc : chem_extract_features_single lib st s none none with
    | mk r st2 =>
      cases r with
      | error e =>
        intro hkv
        simp at hkv
        subst hkv
        rfl
      | ok fs =>
        intro hkv
        simp only at hkv
        obtain ⟨q, hq, hpq⟩ := List.mem_map.mp hkv
        rw [← hpq]
        simp only [round_if_float_scalar]
        have hrun : run_default_table
            (chem_feature_funcs (get_protein_analysis lib ⟨some s⟩) ⟨some s⟩) [] =
            Except.ok fs := by
          have : (chem_extract_features_single lib st s none none).1 = Except.ok fs := by
            rw [hc]
          simpa [chem_extract_features_single] using this
        exact run_default_table_scalar _ _ _ (chem_funcs_scalar _ _)
          (by intro p hp; cases hp) hrun q hq
  · intro lib s
    rw [List.all_eq_true]
    intro kv hkv
    revert hkv
    unfold cub_extractor_extract
    cases hb : cub_extract_body lib s with
    | error e =>
      intro hkv
      simp at hkv
      subst hkv
      rfl
    | ok fs =>
      intro hkv
      simp only at hkv
      obtain ⟨q, hq, hpq⟩ := List.mem_map.mp hkv
      rw [← hpq]
      simp only [round_if_float_scalar]
      revert hb
      unfold cub_extract_body
      cases calc_ENC lib s with
      | error e => intro hb; cases hb
      | ok enc =>
        cases calc_RCBS lib s with
        | error e => intro hb; cases hb
        | ok rcbs =>
          cases hrs : calc_RSCU lib s with
          | error e => intro hb; cases hb
          | ok rscu =>
            cases calc_CPB lib s with
            | error e => intro hb; cases hb
            | ok cpb =>
              cases calc_DCBS lib s with
              | error e => intro hb; cases hb
              | ok dcbs =>
                intro hb
                injection hb with hb
                rw [← hb] at hq
                simp at hq
                rcases hq with rfl|rfl|rfl|rfl|rfl
                · rfl
                · rfl
                · exact calc_RSCU_scalar lib s rscu hrs
                · rfl
                · rfl

/-- C9: a sequence passed as the first positional argument of a
`windowed_feature`-decorated method binds to the wrapper's `windowed`
parameter and is never used as data.  With no `window_size`, the feature
is computed over `self.sequence`; hence any two non-empty positional
arguments give identical results whenever `self.sequence` is unchanged,
and a non-empty (truthy) argument makes the call return the windowed shape
`[(value, 0, len(self.sequence))]` instead of the bare value. -/
theorem claim9_positional_binding (feature_func : String → Except String PyVal)
    (self : SeqSt) (fname : String) :
    (∀ s : String, s ≠ "" →
      windowed_feature fname feature_func self (.pystr s) none 1 false none false none none =
        exceptMapPy (fun v => PyVal.list
          [PyVal.tuple [v, PyVal.int 0, PyVal.int self.sequence.length]])
          (feature_func self.sequence)) ∧
    (∀ s1 s2 : String, s1 ≠ "" → s2 ≠ "" →
      windowed_feature fname feature_func self (.pystr s1) none 1 false none false none none =
        windowed_feature fname feature_func self (.pystr s2) none 1 false none false none none) := by
  have main : ∀ s : String, s ≠ "" →
      windowed_feature fname feature_func self (.pystr s) none 1 false none false none none =
        exceptMapPy (fun v => PyVal.list
          [PyVal.tuple [v, PyVal.int 0, PyVal.int self.sequence.length]])
          (feature_func self.sequence) := by
    intro s hs
    have hb : (s != "") = true := by simpa using hs
    cases hf : feature_func self.sequence <;>
      simp [windowed_feature, truthy, hb, mapExcept, exceptMapPy, hf]
  exact ⟨main, fun s1 s2 h1 h2 => (main s1 h1).trans (main s2 h2).symm⟩

/-- C9 witness: on an instance with `sequence = "ACGT"`, the two distinct
non-empty arguments `"GG"` and `"TTT"` both yield the windowed-shape
result computed over `"ACGT"`. -/
theorem claim9_witness :
    ("GG" : String) ≠ "" ∧ ("TTT" : String) ≠ "" ∧
    (windowed_feature "f" (fun s => Except.ok (PyVal.str s)) ⟨"ACGT"⟩
        (.pystr "GG") none 1 false none false none none =
      exceptMapPy (fun v => PyVal.list
        [PyVal.tuple [v, PyVal.int 0, PyVal.int (String.length "ACGT")]])
        ((fun s => Except.ok (PyVal.str s)) "ACGT")) ∧
    (windowed_feature "f" (fun s => Except.ok (PyVal.str s)) ⟨"ACGT"⟩
        (.pystr "GG") none 1 false none false none none =
      windowed_feature "f" (fun s => Except.ok (PyVal.str s)) ⟨"ACGT"⟩
        (.pystr "TTT") none 1 false none false none none) :=
  ⟨by decide, by decide,
   (claim9_positional_binding (fun s => Except.ok (PyVal.str s)) ⟨"ACGT"⟩ "f").1
     "GG" (by decide),
   (claim9_positional_binding (fun s => Except.ok (PyVal.str s)) ⟨"ACGT"⟩ "f").2
     "GG" "TTT" (by decide) (by decide)⟩

/-- C10: `ChemicalFeaturesMixin._extract_features_single(sequence, ...)`
overwrites the instance attribute `amino_acid_sequence` with its argument
before computing: afterwards the state holds exactly the passed sequence,
so calling it on an `AminoAcidSequence` object with a different argument
mutates the receiver's stored sequence. -/
theorem claim10_receiver_mutation (lib : Libs) (st : ChemSt) (sequence : String)
    (features_json : Option (List (String × SelVal))) (reference_set : Option Unit) :
    (chem_extract_features_single lib st sequence features_json reference_set).2 =
      { amino_acid_sequence := some sequence } ∧
    (st.amino_acid_sequence ≠ some sequence →
      (chem_extract_features_single lib st sequence features_json reference_set).2 ≠ st) := by
  refine ⟨rfl, ?_⟩
  intro hne heq
  apply hne
  have : st.amino_acid_sequence =
      ((chem_extract_features_single lib st sequence features_json reference_set).2).amino_acid_sequence := by
    rw [heq]
  rw [this]
  rfl

/-- C10 witness: an `AminoAcidSequence("MV")` receiver extracted with the
different argument `"GG"` ends up storing `"GG"`. -/
theorem claim10_witness :
    ((⟨some "MV"⟩ : ChemSt).amino_acid_sequence ≠ some "GG") ∧
    (chem_extract_features_single libZero ⟨some "MV"⟩ "GG" none none).2 =
      { amino_acid_sequence := some "GG" } ∧
    (chem_extract_features_single libZero ⟨some "MV"⟩ "GG" none none).2 ≠
      (⟨some "MV"⟩ : ChemSt) :=
  ⟨by simp,
   (claim10_receiver_mutation libZero ⟨some "MV"⟩ "GG" none none).1,
   (claim10_receiver_mutation libZero ⟨some "MV"⟩ "GG" none none).2 (by simp)⟩

/-- In global mode the per-sequence loop appends exactly one global row per
sequence and never touches the error list. -/
theorem efs_global_fold (lib : Libs) (panels : PanelsConfig) (wc : WindowConfig)
    (h : wc.enabled = false) :
    ∀ (l : List SequenceInput) (rs : List FeatureResult)
      (es : List SequenceError) (t : ℕ),
    l.foldl (extract_features_step lib panels wc) (rs, es, t) =
      (rs ++ l.map (fun sq => extract_global_features lib sq.sequence sq.id panels),
       es, t) := by
  intro l
  induction l with
  | nil => intro rs es t; simp
  | cons a l ih =>
    intro rs es t
    rw [List.foldl_cons]
    have hstep : extract_features_step lib panels wc (rs, es, t) a =
        (rs ++ [extract_global_features lib a.sequence a.id panels], es, t) := by
      simp [extract_features_step, h]
    rw [hstep, ih]
    simp

/-- `extract_window_features` with step 0 raises `range`'s `ValueError`. -/
theorem ewf_step_zero (lib : Libs) (s sid : String) (panels : PanelsConfig) (W : ℤ) :
    extract_window_features lib s sid panels W 0 =
      Except.error "range() arg 3 must not be zero" := by
  simp [extract_window_features, pyRange]

/-- `extract_window_features` with nonzero step yields one row per `range`
start. -/
theorem ewf_step_ok (lib : Libs) (s sid : String) (panels : PanelsConfig)
    (W P : ℤ) (h : P ≠ 0) :
    extract_window_features lib s sid panels W P =
      Except.ok ((pyRangeList 0 ((s.length : ℤ) - W + 1) P).map
        (window_row lib panels sid s (detect_sequence_type s) W)) := by
  simp [extract_window_features, pyRange, h]

/-- In windowed mode with step 0, each sequence contributes its global row
and one error entry tagged with its id. -/
theorem efs_zero_fold (lib : Libs) (panels : PanelsConfig) (wc : WindowConfig)
    (hen : wc.enabled = true) (hs : wc.stepSize = 0) :
    ∀ (l : List SequenceInput) (rs : List FeatureResult)
      (es : List SequenceError) (t : ℕ),
    l.foldl (extract_features_step lib panels wc) (rs, es, t) =
      (rs ++ l.map (fun sq => extract_global_features lib sq.sequence sq.id panels),
       es ++ l.map (fun sq =>
         (⟨sq.id, "unknown", "range() arg 3 must not be zero"⟩ : SequenceError)),
       t) := by
  intro l
  induction l with
  | nil => intro rs es t; simp
  | cons a l ih =>
    intro rs es t
    rw [List.foldl_cons]
    have hstep : extract_features_step lib panels wc (rs, es, t) a =
        (rs ++ [extract_global_features lib a.sequence a.id panels],
         es ++ [⟨a.id, "unknown", "range() arg 3 must not be zero"⟩], t) := by
      simp [extract_features_step, hen, hs, ewf_step_zero]
    rw [hstep, ih]
    simp

/-- In windowed mode with nonzero step, each sequence contributes its
global row followed by its window rows, and no error entries. -/
theorem efs_ok_fold (lib : Libs) (panels : PanelsConfig) (wc : WindowConfig)
    (hen : wc.enabled = true) (hs : wc.stepSize ≠ 0) :
    ∀ (l : List SequenceInput) (rs : List FeatureResult)
      (es : List SequenceError) (t : ℕ),
    ∃ tw : ℕ,
    l.foldl (extract_features_step lib panels wc) (rs, es, t) =
      (rs ++ l.flatMap (fun sq =>
        extract_global_features lib sq.sequence sq.id panels ::
        (pyRangeList 0 ((sq.sequence.length : ℤ) - wc.windowSize + 1) wc.stepSize).map
          (window_row lib panels sq.id sq.sequence
            (detect_sequence_type sq.sequence) wc.windowSize)),
       es, tw) := by
  intro l
  induction l with
  | nil => intro rs es t; exact ⟨t, by simp⟩
  | cons a l ih =>
    intro rs es t
    rw [List.foldl_cons]
    have hstep : extract_features_step lib panels wc (rs, es, t) a =
        (rs ++ (extract_global_features lib a.sequence a.id panels ::
          (pyRangeList 0 ((a.sequence.length : ℤ) - wc.windowSize + 1) wc.stepSize).map
            (window_row lib panels a.id a.sequence
              (detect_sequence_type a.sequence) wc.windowSize)),
         es,
         t + ((pyRangeList 0 ((a.sequence.length : ℤ) - wc.windowSize + 1) wc.stepSize).map
            (window_row lib panels a.id a.sequence
              (detect_sequence_type a.sequence) wc.windowSize)).length) := by
      simp [extract_features_step, hen, ewf_step_ok lib a.sequence a.id panels wc.windowSize wc.stepSize hs]
    rw [hstep]
    obtain ⟨tw, htw⟩ := ih _ _ _
    refine ⟨tw, ?_⟩
    rw [htw]
    simp [List.flatMap_cons]

/-- C1 counterexample: `"AJ"` fails both sequence-class validations, yet a
global-mode batch `["AJ", "ACGT"]` returns 2 result rows and no error
entry — not the claimed `N-1` rows plus one tagged error entry.  (The
endpoint never constructs the validating sequence classes outside the
swallowed chemical-translation branch.) -/
theorem claim1_counterexample :
    valid_amino_acid "AJ" = false ∧
    valid_nucleotide "AJ" = false ∧
    (extract_features libZero
      ⟨[⟨"bad", "AJ"⟩, ⟨"ok", "ACGT"⟩], panelsOff, none⟩).results.length = 2 ∧
    (extract_features libZero
      ⟨[⟨"bad", "AJ"⟩, ⟨"ok", "ACGT"⟩], panelsOff, none⟩).errors = none :=
  ⟨rfl, rfl, rfl, rfl⟩

/-- C1 (amended): the endpoint performs no per-sequence validation.  In
global mode every sequence of the batch — valid or not — yields exactly
one result row, rows appear in input order, and the error list is empty;
one sequence can therefore never abort the others.  (An error entry tagged
with the sequence id arises only when windowed processing raises; see the
step-0 theorem for C6.) -/
theorem claim1_amended (lib : Libs) (req : FeatureRequest)
    (h : (get_window_config req).enabled = false) :
    (extract_features lib req).results =
      req.sequences.map (fun sq =>
        extract_global_features lib sq.sequence sq.id req.panels) ∧
    (extract_features lib req).results.length = req.sequences.length ∧
    (extract_features lib req).errors = none := by
  have hf := efs_global_fold lib req.panels (get_window_config req) h
    req.sequences [] [] 0
  refine ⟨?_, ?_, ?_⟩ <;>
    simp [extract_features, get_window_config] at hf ⊢ <;>
    simp [hf]

/-- C1 witness: a concrete global-mode request with two sequences. -/
theorem claim1_witness :
    (get_window_config ⟨[⟨"a", "ACGT"⟩, ⟨"b", "GG"⟩], panelsOff, none⟩).enabled = false ∧
    ((extract_features libZero ⟨[⟨"a", "ACGT"⟩, ⟨"b", "GG"⟩], panelsOff, none⟩).results =
      [⟨"a", "ACGT"⟩, ⟨"b", "GG"⟩].map (fun sq : SequenceInput =>
        extract_global_features libZero sq.sequence sq.id panelsOff) ∧
     (extract_features libZero ⟨[⟨"a", "ACGT"⟩, ⟨"b", "GG"⟩], panelsOff, none⟩).results.length =
      ([⟨"a", "ACGT"⟩, ⟨"b", "GG"⟩] : List SequenceInput).length ∧
     (extract_features libZero ⟨[⟨"a", "ACGT"⟩, ⟨"b", "GG"⟩], panelsOff, none⟩).errors = none) :=
  ⟨rfl, claim1_amended libZero ⟨[⟨"a", "ACGT"⟩, ⟨"b", "GG"⟩], panelsOff, none⟩ rfl⟩

/-- C6 counterexample: a windowed request with `stepSize = 0` does not
fail with an `InvalidWindowConfig` (no such error exists in the code): the
request *succeeds* (`success = true`), each sequence still gets its global
row, and `range`'s `ValueError` is caught per sequence and stored as an
error entry. -/
theorem claim6_counterexample :
    (extract_features libZero
      ⟨[⟨"s1", "ACGT"⟩], panelsOff, some ⟨true, 10, 0⟩⟩).success = true ∧
    (extract_features libZero
      ⟨[⟨"s1", "ACGT"⟩], panelsOff, some ⟨true, 10, 0⟩⟩).results =
      [⟨"s1", none, none, []⟩] ∧
    (extract_features libZero
      ⟨[⟨"s1", "ACGT"⟩], panelsOff, some ⟨true, 10, 0⟩⟩).errors =
      some [⟨"s1", "unknown", "range() arg 3 must not be zero"⟩] :=
  ⟨rfl, rfl, rfl⟩

/-- C6 (amended): neither the backend nor the sliding-window engine
validates the step.  For `stepSize = 0`, `range` raises a `ValueError`
which the per-sequence handler converts into one error entry per sequence
(tagged `"unknown"` panel, carrying the range message) while the global
rows are kept and the request as a whole succeeds — the request does not
fail, no `InvalidWindowConfig` exists.  (For negative steps the request
silently produces windows or none; see the C7 counterexample.) -/
theorem claim6_amended (lib : Libs) (req : FeatureRequest) (wc : WindowConfig)
    (hw : req.window = some wc) (hen : wc.enabled = true) (hs : wc.stepSize = 0)
    (hne : req.sequences ≠ []) :
    (extract_features lib req).success = true ∧
    (extract_features lib req).results =
      req.sequences.map (fun sq =>
        extract_global_features lib sq.sequence sq.id req.panels) ∧
    (extract_features lib req).errors =
      some (req.sequences.map (fun sq =>
        (⟨sq.id, "unknown", "range() arg 3 must not be zero"⟩ : SequenceError))) := by
  have hwc : get_window_config req = wc := by simp [get_window_config, hw]
  have hf := efs_zero_fold lib req.panels wc hen hs req.sequences [] [] 0
  refine ⟨rfl, ?_, ?_⟩
  · simp [extract_features, hwc, hf]
  · simp only [extract_features, hwc, hf]
    simp only [List.nil_append]
    cases hseq : req.sequences with
    | nil => exact absurd hseq hne
    | cons a l => simp

/-- C6 witness: a concrete windowed request with `stepSize = 0`. -/
theorem claim6_witness :
    ((⟨[⟨"x", "ACGTACGT"⟩], panelsOff, some ⟨true, 4, 0⟩⟩ : FeatureRequest).window =
      some ⟨true, 4, 0⟩) ∧
    ((extract_features libZero ⟨[⟨"x", "ACGTACGT"⟩], panelsOff, some ⟨true, 4, 0⟩⟩).success = true ∧
     (extract_features libZero ⟨[⟨"x", "ACGTACGT"⟩], panelsOff, some ⟨true, 4, 0⟩⟩).results =
      [⟨"x", "ACGTACGT"⟩].map (fun sq : SequenceInput =>
        extract_global_features libZero sq.sequence sq.id panelsOff) ∧
     (extract_features libZero ⟨[⟨"x", "ACGTACGT"⟩], panelsOff, some ⟨true, 4, 0⟩⟩).errors =
      some ([⟨"x", "ACGTACGT"⟩].map (fun sq : SequenceInput =>
        (⟨sq.id, "unknown", "range() arg 3 must not be zero"⟩ : SequenceError)))) :=
  ⟨rfl, claim6_amended libZero ⟨[⟨"x", "ACGTACGT"⟩], panelsOff, some ⟨true, 4, 0⟩⟩
    ⟨true, 4, 0⟩ rfl rfl rfl (by simp)⟩

/-- C7 counterexample: a windowed request with a negative step produces
window rows with *descending* (and negative) starts: the result collection
violates the claimed ascending-start ordering invariant. -/
theorem claim7_counterexample :
    (extract_features libZero
      ⟨[⟨"s", "ACGT"⟩], panelsOff, some ⟨true, 10, -2⟩⟩).results =
      [⟨"s", none, none, []⟩, ⟨"s", some 0, some 10, []⟩,
       ⟨"s", some (-2), some 8, []⟩, ⟨"s", some (-4), some 6, []⟩] ∧
    (([(⟨"s", none, none, []⟩ : FeatureResult), ⟨"s", some 0, some 10, []⟩,
       ⟨"s", some (-2), some 8, []⟩, ⟨"s", some (-4), some 6, []⟩].drop 1).filterMap
        FeatureResult.windowStart = [0, -2, -4] ∧
     ¬ List.Chain' (· < ·) ([0, -2, -4] : List ℤ)) :=
  ⟨rfl, rfl, by norm_num [List.chain'_cons]⟩

/-- C7 (amended): for windowed-mode requests with a positive step, the
result collection is exactly, per input sequence in input order and
without interleaving, the global row (both bounds absent) followed by that
sequence's window rows; each window row carries both bounds
`(start, start + windowSize)`, and the generated starts are strictly
ascending. -/
theorem claim7_amended (lib : Libs) (req : FeatureRequest) (wc : WindowConfig)
    (hw : req.window = some wc) (hen : wc.enabled = true) (hstep : 1 ≤ wc.stepSize) :
    (extract_features lib req).results =
      req.sequences.flatMap (fun sq =>
        extract_global_features lib sq.sequence sq.id req.panels ::
        (pyRangeList 0 ((sq.sequence.length : ℤ) - wc.windowSize + 1) wc.stepSize).map
          (window_row lib req.panels sq.id sq.sequence
            (detect_sequence_type sq.sequence) wc.windowSize)) ∧
    (∀ sq : SequenceInput,
      (extract_global_features lib sq.sequence sq.id req.panels).windowStart = none ∧
      (extract_global_features lib sq.sequence sq.id req.panels).windowEnd = none) ∧
    (∀ (sq : SequenceInput) (start : ℤ),
      (window_row lib req.panels sq.id sq.sequence
        (detect_sequence_type sq.sequence) wc.windowSize start).sequenceId = sq.id ∧
      (window_row lib req.panels sq.id sq.sequence
        (detect_sequence_type sq.sequence) wc.windowSize start).windowStart = some start ∧
      (window_row lib req.panels sq.id sq.sequence
        (detect_sequence_type sq.sequence) wc.windowSize start).windowEnd =
        some (start + wc.windowSize)) ∧
    (∀ M : ℤ, List.Pairwise (· < ·) (pyRangeList 0 M wc.stepSize)) := by
  have hwc : get_window_config req = wc := by simp [get_window_config, hw]
  have hs0 : wc.stepSize ≠ 0 := by omega
  obtain ⟨tw, hf⟩ := efs_ok_fold lib req.panels wc hen hs0 req.sequences [] [] 0
  refine ⟨?_, ?_, ?_, ?_⟩
  · simp [extract_features, hwc, hf]
  · intro sq
    exact ⟨rfl, rfl⟩
  · intro sq start
    exact ⟨rfl, rfl, rfl⟩
  · intro M
    unfold pyRangeList
    refine List.Pairwise.map _ ?_ (List.pairwise_lt_range (pyRangeLen 0 M wc.stepSize))
    intro a b hab
    have ha : (a : ℤ) < (b : ℤ) := by exact_mod_cast hab
    have := mul_lt_mul_of_pos_left ha (show (0 : ℤ) < wc.stepSize by omega)
    omega

/-- C7 witness: a concrete windowed request (`windowSize = 2`,
`stepSize = 1`) over one sequence. -/
theorem claim7_witness :
    ((⟨[⟨"w", "ACGT"⟩], panelsOff, some ⟨true, 2, 1⟩⟩ : FeatureRequest).window =
      some ⟨true, 2, 1⟩) ∧
    (1 : ℤ) ≤ 1 ∧
    ((extract_features libZero ⟨[⟨"w", "ACGT"⟩], panelsOff, some ⟨true, 2, 1⟩⟩).results =
      [⟨"w", "ACGT"⟩].flatMap (fun sq : SequenceInput =>
        extract_global_features libZero sq.sequence sq.id panelsOff ::
        (pyRangeList 0 ((sq.sequence.length : ℤ) - 2 + 1) 1).map
          (window_row libZero panelsOff sq.id sq.sequence
            (detect_sequence_type sq.sequence) 2))) ∧
    (∀ M : ℤ, List.Pairwise (· < ·) (pyRangeList 0 M 1)) := by
  have h := claim7_amended libZero ⟨[⟨"w", "ACGT"⟩], panelsOff, some ⟨true, 2, 1⟩⟩
    ⟨true, 2, 1⟩ rfl rfl (by norm_num)
  exact ⟨rfl, by omega, h.1, h.2.2.2⟩

/-- Closed form of the forward sliding-window loop: with positive step and
enough fuel, it emits index pairs `(base+start+i*step, base+start+i*step+w)`
for `i` below the window count. -/
theorem sliding_go_fwd_spec (s : String) (w step base : ℕ) (hstep : 0 < step) :
    ∀ fuel start,
    (if start + w ≤ s.length then (s.length - w - start) / step + 1 else 0) ≤ fuel →
    (sliding_go_fwd s w step base fuel start).2 =
      (List.range (if start + w ≤ s.length then (s.length - w - start) / step + 1 else 0)).map
        (fun i => (base + start + i * step, base + start + i * step + w)) := by
  intro fuel
  induction fuel with
  | zero =>
    intro start h
    by_cases hle : start + w ≤ s.length
    · rw [if_pos hle] at h; exact (Nat.not_succ_le_zero _ h).elim
    · rw [if_neg hle]; simp [sliding_go_fwd]
  | succ fuel ih =>
    intro start h
    by_cases hle : start + w ≤ s.length
    · rw [if_pos hle] at h ⊢
      simp only [sliding_go_fwd, if_pos hle]
      by_cases hle2 : start + step + w ≤ s.length
      · have hdiv : (s.length - w - start) / step =
            (s.length - w - (start + step)) / step + 1 := by
          have harg : s.length - w - start - step = s.length - w - (start + step) := by omega
          rw [Nat.div_eq (s.length - w - start) step, if_pos ⟨hstep, by omega⟩, harg]
        have hcnt : (if start + step + w ≤ s.length then
            (s.length - w - (start + step)) / step + 1 else 0) ≤ fuel := by
          rw [if_pos hle2]
          omega
        have hrec := ih (start + step) hcnt
        rw [if_pos hle2] at hrec
        rw [hrec, hdiv]
        conv_rhs => rw [List.range_succ_eq_map]
        simp only [List.map_cons, List.map_map, Nat.zero_mul, Nat.add_zero]
        congr 1
        refine List.map_congr_left ?_
        intro i _
        simp only [Function.comp_apply, Prod.mk.injEq, Nat.succ_eq_add_one]
        constructor <;> ring
      · have hz : (s.length - w - start) / step = 0 := Nat.div_eq_of_lt (by omega)
        have hcnt : (if start + step + w ≤ s.length then
            (s.length - w - (start + step)) / step + 1 else 0) ≤ fuel := by
          rw [if_neg hle2]
          omega
        have hrec := ih (start + step) hcnt
        rw [if_neg hle2] at hrec
        rw [hrec, hz]
        simp [List.range_succ]
    · rw [if_neg hle] at h ⊢
      simp [sliding_go_fwd, hle]

/-- The forward loop emits as many window strings as index pairs. -/
theorem sliding_go_fwd_len (s : String) (w step base : ℕ) :
    ∀ fuel start,
    (sliding_go_fwd s w step base fuel start).1.length =
      (sliding_go_fwd s w step base fuel start).2.length := by
  intro fuel
  induction fuel with
  | zero => intro start; rfl
  | succ fuel ih =>
    intro start
    by_cases hle : start + w ≤ s.length <;> simp [sliding_go_fwd, hle, ih]

/-- C2: in forward mode with positive window size `W` and step `P`, the
sliding-window engine emits exactly `(L-W)/P + 1` windows when `W ≤ L` and
zero windows when `W > L` (never an error — the function is total), the
`i`-th emitted window being the half-open interval `(i*P, i*P + W)`, in
strictly ascending start order. -/
theorem claim2_sliding_window_engine (sequence : String) (W P : ℕ)
    (hW : 0 < W) (hP : 0 < P) :
    (sliding_windows sequence W P false none none none).2 =
      (List.range (if W ≤ sequence.length then (sequence.length - W) / P + 1 else 0)).map
        (fun i => (i * P, i * P + W)) ∧
    (sliding_windows sequence W P false none none none).1.length =
      (if W ≤ sequence.length then (sequence.length - W) / P + 1 else 0) ∧
    List.Pairwise (fun a b : ℕ × ℕ => a.1 < b.1)
      (sliding_windows sequence W P false none none none).2 := by
  have hfuel : (if 0 + W ≤ sequence.length then (sequence.length - W - 0) / P + 1 else 0) ≤
      sequence.length + 1 := by
    by_cases hle : 0 + W ≤ sequence.length
    · rw [if_pos hle]
      have := Nat.div_le_self (sequence.length - W - 0) P
      omega
    · rw [if_neg hle]; omega
  have hspec := sliding_go_fwd_spec sequence W P 0 hP (sequence.length + 1) 0 hfuel
  have hm2 : (sliding_windows sequence W P false none none none).2 =
      (sliding_go_fwd sequence W P 0 (sequence.length + 1) 0).2 := by
    simp [sliding_windows]
  have hm1 : (sliding_windows sequence W P false none none none).1 =
      (sliding_go_fwd sequence W P 0 (sequence.length + 1) 0).1 := by
    simp [sliding_windows]
  have hmain : (sliding_windows sequence W P false none none none).2 =
      (List.range (if W ≤ sequence.length then (sequence.length - W) / P + 1 else 0)).map
        (fun i => (i * P, i * P + W)) := by
    rw [hm2, hspec]
    simp
  refine ⟨hmain, ?_, ?_⟩
  · rw [hm1, sliding_go_fwd_len, hspec]
    simp
  · rw [hmain]
    refine List.Pairwise.map _ ?_ (List.pairwise_lt_range _)
    intro a b hab
    exact (Nat.mul_lt_mul_right hP).mpr hab

/-- C2 witness: `L = 12`, `W = 5`, `P = 1` — eight windows, as in the
repository's own step-size-one test. -/
theorem claim2_witness :
    0 < 5 ∧ 0 < 1 ∧
    ((sliding_windows "ATGCATGCATGC" 5 1 false none none none).2 =
      (List.range (if 5 ≤ ("ATGCATGCATGC" : String).length then
        (("ATGCATGCATGC" : String).length - 5) / 1 + 1 else 0)).map
        (fun i => (i * 1, i * 1 + 5)) ∧
     (sliding_windows "ATGCATGCATGC" 5 1 false none none none).1.length =
      (if 5 ≤ ("ATGCATGCATGC" : String).length then
        (("ATGCATGCATGC" : String).length - 5) / 1 + 1 else 0) ∧
     List.Pairwise (fun a b : ℕ × ℕ => a.1 < b.1)
      (sliding_windows "ATGCATGCATGC" 5 1 false none none none).2) :=
  ⟨by decide, by decide,
   claim2_sliding_window_engine "ATGCATGCATGC" 5 1 (by decide) (by decide)⟩
